import Mathlib

/-!
# subsample_seer: sampler, phenotype model, phenotype generator and sweep

A shallow embedding of `src/seer/subsample_seer.cpp`.

Conventions of the embedding:

* `double` values are exact rationals (`ℚ`); `pow(x, -1)` is `x⁻¹`.
* `int` and `size_t` counters are unbounded naturals or integers.  This agrees
  with the code as long as no counter leaves the range of a C `int`
  (population sizes below `2^31 - 1`).  The one conversion that wraps in the
  code, `int` to `size_t` at the call of `seer_hits::operator()`, is modelled
  with an explicit `% 2^64`.
* `rand()` is a stream `rand : ℕ → ℕ`; `rand k` is the value returned by the
  `k`-th call made by the function under consideration.
* `std::vector<int>` is `List ℤ`.  `operator[]` is unchecked in the code; the
  embedding makes the two possible outcomes explicit, see `vec_store` and
  `vec_at`.
-/

namespace Seer

/-! ## Data model -/

/-- The record `struct Sample` of the source (lines 37-41). -/
structure Sample where
  sample_name : String
  element_present : Int

/-! ## Sampler: `reservoir_sample` (lines 81-100) -/

/-- The assignment `v[j] = x` on a vector.  A store to an existing slot replaces that
element.  A store past the end does not touch any of the `v.size()` elements and
does not change `v.size()`; it is the out-of-bounds branch, and the positions of
all stores are recorded separately in `Reservoir.stores`. -/
def vec_store (v : List Int) (j : Nat) (x : Int) : List Int :=
  if j < v.length then v.set j x else v

/-- State of the replacement loop: the vector `sample_indices` together with the
positions `j` of the stores `sample_indices[j] = i` executed so far. -/
structure Reservoir where
  sample_indices : List Int
  stores : List Nat

/-- First loop (lines 85-88): `for (int i = 1; i <= size; ++i) push_back(i)`. -/
def fill_reservoir (size : Nat) : List Int :=
  (List.range' 1 size).foldl (fun (v : List Int) (i : Nat) => v ++ [(i : Int)]) []

/-- Body of the second loop (lines 92-96) for the counter value `i`:
`j = rand() % i + 1; if (j <= size) sample_indices[j] = i;`.
The iteration with counter `i` is the `(i - (size + 1))`-th call of `rand()`. -/
def replace_step (size : Nat) (rand : Nat → Nat) (st : Reservoir) (i : Nat) : Reservoir :=
  let j := rand (i - (size + 1)) % i + 1
  if j ≤ size then
    { sample_indices := vec_store st.sample_indices j (i : Int), stores := st.stores ++ [j] }
  else st

/-- Both loops of `reservoir_sample`: the second one runs the counter `i` over
`size + 1, ..., max_size`. -/
def reservoir_run (size max_size : Nat) (rand : Nat → Nat) : Reservoir :=
  (List.range' (size + 1) (max_size - size)).foldl (replace_step size rand)
    { sample_indices := fill_reservoir size, stores := [] }

/-- The vector returned by `reservoir_sample(size, max_size)`. -/
def reservoir_sample (size max_size : Nat) (rand : Nat → Nat) : List Int :=
  (reservoir_run size max_size rand).sample_indices

/-- The loop invariant of the replacement loop before the iteration with counter `i`:
the vector has `size` pairwise distinct elements, all in `[1, i)`, and slot 0
still holds the initial value. -/
structure ReservoirInv (size i : Nat) (st : Reservoir) : Prop where
  length_eq : st.sample_indices.length = size
  nodup : st.sample_indices.Nodup
  range : ∀ x ∈ st.sample_indices, (1 : Int) ≤ x ∧ x < (i : Int)
  head : 1 ≤ size → st.sample_indices.head? = some 1
  stores_range : ∀ j ∈ st.stores, 1 ≤ j ∧ j ≤ size

/-! ## Phenotype model: `p_case_ne`, `p_case_e` (lines 135-143) -/

/-- The base of the outer `pow(., -1)` in `p_case_ne`:
`(1 + pow(Sr, -1)) * (MAF * (OR - 1) + 1)`. -/
def p_case_ne_base (OR MAF Sr : ℚ) : ℚ :=
  (1 + Sr⁻¹) * (MAF * (OR - 1) + 1)

/-- Line 137: `pow((1+pow(Sr, -1))*(MAF*(OR - 1) + 1), -1)`. -/
def p_case_ne (OR MAF Sr : ℚ) : ℚ :=
  (p_case_ne_base OR MAF Sr)⁻¹

/-- Line 142: `1 - p_case_ne(OR, MAF, Sr)`. -/
def p_case_e (OR MAF Sr : ℚ) : ℚ :=
  1 - p_case_ne OR MAF Sr

/-! ## Phenotype generator: `generate_pheno` (lines 102-130) -/

/-- The read `v[i]` with an `int` index: `none` stands for a read outside the vector
(a negative `int` converts to a huge `size_t`). -/
def vec_at {α : Type} (v : List α) (i : Int) : Option α :=
  if 0 ≤ i then v[i.toNat]? else none

/-- Lines 117-123: `pheno` for one individual, from its `element_present` flag, the
draw `rand_nr = rand()` and the two probabilities. -/
def pheno_label (element_present : Int) (rand_nr : Nat) (p_ne p_e : ℚ) : Nat :=
  if (element_present ≠ 0 ∧ (rand_nr : ℚ) < p_e) ∨ (element_present = 0 ∧ (rand_nr : ℚ) < p_ne)
  then 1 else 0

/-- Line 125: the text `sample_name << "\t" << pheno << "\n"`. -/
def pheno_line (s : Sample) (pheno : Nat) : String :=
  s.sample_name ++ "\t" ++ toString pheno ++ "\n"

/-- The loop of lines 114-126 over the remaining kept indices; `k` is the number of
`rand()` calls made so far and `out` the text written so far.  `none` stands for a
read of `sample_names` outside the roster. -/
def pheno_loop (sample_names : List Sample) (p_ne p_e : ℚ) (rand : Nat → Nat) :
    List Int → Nat → String → Option String
  | [], _, out => some out
  | i :: rest, k, out =>
    match vec_at sample_names i with
    | none => none
    | some s =>
      pheno_loop sample_names p_ne p_e rand rest (k + 1)
        (out ++ pheno_line s (pheno_label s.element_present (rand k) p_ne p_e))

/-- The content of the phenotype file written by `generate_pheno`, for a temporary
file that could be opened (otherwise the function throws before the loop). -/
def generate_pheno (sample_names : List Sample) (kept_indices : List Int) (p_ne : ℚ)
    (rand : Nat → Nat) : Option String :=
  pheno_loop sample_names p_ne (1 - p_ne) rand kept_indices 0 ""

/-! ## Trial runner: `seer_hits::operator()` (lines 58-72) -/

/-- What one trial prepares for the external tool: the kept indices (they also select
the rows of the structure matrix), the probability passed to `generate_pheno`
and the content of the phenotype file. -/
structure Staging where
  samples_kept : List Int
  p_ne : ℚ
  pheno_file : Option String

/-- Lines 60-61 of `operator()(num_samples, OR)`.  `reservoir_sample` makes
`sample_names.size() - num_samples` calls of `rand()` before `generate_pheno`
makes its own. -/
def seer_hits_stage (sample_names : List Sample) (MAF Sr : ℚ) (num_samples : Nat) (OR : ℚ)
    (rand : Nat → Nat) : Staging :=
  let samples_kept := reservoir_sample num_samples sample_names.length rand
  let p := p_case_ne OR MAF Sr
  { samples_kept := samples_kept
    p_ne := p
    pheno_file :=
      generate_pheno sample_names samples_kept p
        (fun k => rand (sample_names.length - num_samples + k)) }

/-- One call of the functor: what it staged and the `int` it returned. -/
structure Trial where
  staging : Staging
  result : Int

/-- The functor `seer_hits` as a state transformer on the number `c` of `rand()`
calls made so far; `seer` stands for the external tool (lines 62-71: structure
file, command, `stoi` of its output).  The trial makes one call of `rand()` per
iteration of the replacement loop and one per kept index. -/
def seer_hits_call (sample_names : List Sample) (MAF Sr : ℚ) (rand : Nat → Nat)
    (seer : Staging → Int) (c : Nat) (num_samples : Nat) (OR : ℚ) : Trial × Nat :=
  let st := seer_hits_stage sample_names MAF Sr num_samples OR (fun k => rand (c + k))
  ({ staging := st, result := seer st },
   c + (sample_names.length - num_samples) + st.samples_kept.length)

/-! ## Sweep driver: the loops of `main` (lines 217-227) -/

/-- The constants of lines 22-33. -/
structure SweepConfig where
  start_OR : ℚ
  OR_step : ℚ
  end_OR : ℚ
  start_samples : Int
  samples_step : Int
  end_samples : Int
  repeats : ℚ
  element_MAF : ℚ
  target_Sr : ℚ

/-- The values compiled into the source. -/
def source_config : SweepConfig :=
  { start_OR := 1 / 2, OR_step := 1, end_OR := 11 / 2
    start_samples := 50, samples_step := 50, end_samples := 3000
    repeats := 100, element_MAF := 1 / 4, target_Sr := 1 }

/-- Conversion of a `double` to `int`: truncation toward zero. -/
def double_to_int (q : ℚ) : Int :=
  Int.tdiv q.num q.den

/-- Conversion of an `int` argument to a `size_t` parameter (64 bit). -/
def int_to_size_t (i : Int) : Nat :=
  (i % 2 ^ 64).toNat

/-- One line of the output: `OR`, `num_samples`, `repeat` as printed, and the value
returned by the trial. -/
structure Row (ρ : Type) where
  OR : Int
  num_samples : Int
  rep : Int
  result : ρ

section sweep
variable {ρ σ : Type}

/-- Innermost loop (lines 222-225), from the counter value `rep` on.  `run` is the
call `run_seer(., .)` acting on the state `σ` of the process (random generator,
external tool); the loop body calls `run_seer(OR, num_samples)`, whose
parameters are `(const size_t num_samples, const double OR)` in this order.
`fuel` bounds the number of evaluations of the loop condition. -/
def repeat_loop (cfg : SweepConfig) (run : σ → Nat → ℚ → ρ × σ) (OR num_samples : Int) :
    Nat → Int → σ → Option (List (Row ρ) × σ)
  | 0, _, _ => none
  | fuel + 1, rep, s =>
    if (rep : ℚ) ≤ cfg.repeats then
      let r := run s (int_to_size_t OR) (num_samples : ℚ)
      match repeat_loop cfg run OR num_samples fuel (rep + 1) r.2 with
      | none => none
      | some (rows, s') =>
        some ({ OR := OR, num_samples := num_samples, rep := rep, result := r.1 } :: rows, s')
    else some ([], s)

/-- Middle loop (lines 220-226), from the counter value `num_samples` on. -/
def samples_loop (cfg : SweepConfig) (run : σ → Nat → ℚ → ρ × σ) (OR : Int) (fuel : Nat) :
    Nat → Int → σ → Option (List (Row ρ) × σ)
  | 0, _, _ => none
  | n + 1, num_samples, s =>
    if num_samples ≤ cfg.end_samples then
      match repeat_loop cfg run OR num_samples fuel 1 s with
      | none => none
      | some (rows, s') =>
        match samples_loop cfg run OR fuel n (num_samples + cfg.samples_step) s' with
        | none => none
        | some (rows', s'') => some (rows ++ rows', s'')
    else some ([], s)

/-- Outer loop (lines 218-227), from the counter value `OR` on; `OR` is an `int`, so
`OR += OR_step` converts the sum back to `int`. -/
def OR_loop (cfg : SweepConfig) (run : σ → Nat → ℚ → ρ × σ) (fuel : Nat) :
    Nat → Int → σ → Option (List (Row ρ) × σ)
  | 0, _, _ => none
  | n + 1, OR, s =>
    if (OR : ℚ) ≤ cfg.end_OR then
      match samples_loop cfg run OR fuel fuel cfg.start_samples s with
      | none => none
      | some (rows, s') =>
        match OR_loop cfg run fuel n (double_to_int ((OR : ℚ) + cfg.OR_step)) s' with
        | none => none
        | some (rows', s'') => some (rows ++ rows', s'')
    else some ([], s)

/-- The rows printed by the sweep of `main`, `none` when some loop needs more than
`fuel` evaluations of its condition.  `int OR = start_OR` converts the `double`
constant. -/
def main_sweep (cfg : SweepConfig) (run : σ → Nat → ℚ → ρ × σ) (fuel : Nat) (s : σ) :
    Option (List (Row ρ)) :=
  (OR_loop cfg run fuel fuel (double_to_int cfg.start_OR) s).map Prod.fst

end sweep

/-- The sweep of `main` (line 217 constructs `run_seer` from the roster, `element_MAF`
and `target_Sr`), started before any call of `rand()`. -/
def main_rows (cfg : SweepConfig) (sample_names : List Sample) (rand : Nat → Nat)
    (seer : Staging → Int) (fuel : Nat) : Option (List (Row Trial)) :=
  main_sweep cfg (seer_hits_call sample_names cfg.element_MAF cfg.target_Sr rand seer) fuel 0

/-- The constants of the sweep scenario of the specification (one step in each
dimension, two repeats), with the source's `element_MAF` and `target_Sr`. -/
def scenario_config : SweepConfig :=
  { start_OR := 1 / 2, OR_step := 1, end_OR := 3 / 2
    start_samples := 50, samples_step := 50, end_samples := 100
    repeats := 2, element_MAF := 1 / 4, target_Sr := 1 }

/-! ## Facts about the sampler -/

theorem foldl_push_eq {α β : Type} (f : α → β) (l : List α) (acc : List β) :
    l.foldl (fun v i => v ++ [f i]) acc = acc ++ l.map f := by
  induction l generalizing acc with
  | nil => simp
  | cons a l ih => simp [ih]

theorem fill_reservoir_eq (size : Nat) :
    fill_reservoir size = (List.range' 1 size).map (fun i : Nat => (i : Int)) := by
  unfold fill_reservoir
  rw [foldl_push_eq (fun i : Nat => (i : Int))]
  simp

theorem vec_store_length (v : List Int) (j : Nat) (x : Int) :
    (vec_store v j x).length = v.length := by
  unfold vec_store
  split <;> simp

theorem vec_store_mem {v : List Int} {j : Nat} {x y : Int} (h : y ∈ vec_store v j x) :
    y ∈ v ∨ y = x := by
  unfold vec_store at h
  split at h
  · exact List.mem_or_eq_of_mem_set h
  · exact Or.inl h

theorem vec_store_nodup {v : List Int} (j : Nat) {x : Int} (hv : v.Nodup) (hx : x ∉ v) :
    (vec_store v j x).Nodup := by
  unfold vec_store
  split
  · exact hv.set hx
  · exact hv

theorem vec_store_head {v : List Int} {j : Nat} (x : Int) (hj : 1 ≤ j) :
    (vec_store v j x).head? = v.head? := by
  unfold vec_store
  split
  · cases v with
    | nil => simp
    | cons a t =>
      cases j with
      | zero => omega
      | succ j => simp
  · rfl

theorem reservoirInv_init (size : Nat) :
    ReservoirInv size (size + 1) { sample_indices := fill_reservoir size, stores := [] } := by
  refine ⟨?_, ?_, ?_, ?_, by simp⟩
  · simp [fill_reservoir_eq]
  · rw [fill_reservoir_eq]
    exact (List.nodup_range' 1 size).map (fun a b h => by exact_mod_cast h)
  · intro x hx
    simp only [fill_reservoir_eq, List.mem_map, List.mem_range'_1] at hx
    obtain ⟨a, ha, rfl⟩ := hx
    constructor
    · exact_mod_cast ha.1
    · have := ha.2
      push_cast
      omega
  · intro h
    obtain ⟨n, rfl⟩ : ∃ n, size = n + 1 := ⟨size - 1, by omega⟩
    simp [fill_reservoir_eq, List.range'_succ]

theorem reservoirInv_step (size : Nat) (rand : Nat → Nat) (i : Nat) (st : Reservoir)
    (h : ReservoirInv size i st) : ReservoirInv size (i + 1) (replace_step size rand st i) := by
  unfold replace_step
  simp only
  split
  · refine ⟨?_, ?_, ?_, ?_, ?_⟩
    · simpa [vec_store_length] using h.length_eq
    · refine vec_store_nodup _ h.nodup ?_
      intro hmem
      exact absurd (h.range _ hmem).2 (lt_irrefl _)
    · intro x hx
      rcases vec_store_mem hx with hx | rfl
      · have := h.range x hx
        constructor
        · exact this.1
        · push_cast
          omega
      · constructor
        · -- a stored counter exceeds an element of the (then non-empty) vector
          cases hl : st.sample_indices with
          | nil =>
            simp [vec_store, hl] at hx
          | cons a t =>
            have ha := h.range a (by simp [hl])
            omega
        · push_cast
          omega
    · intro hs
      rw [vec_store_head _ (by omega)]
      exact h.head hs
    · intro j hj
      rcases List.mem_append.1 hj with hj | hj
      · exact h.stores_range j hj
      · rw [List.mem_singleton] at hj
        omega
  · exact ⟨h.length_eq, h.nodup, fun x hx => ⟨(h.range x hx).1, by
      have := (h.range x hx).2
      push_cast
      omega⟩, h.head, h.stores_range⟩

theorem reservoirInv_foldl (size : Nat) (rand : Nat → Nat) :
    ∀ (n s : Nat) (st : Reservoir), ReservoirInv size s st →
      ReservoirInv size (s + n) ((List.range' s n).foldl (replace_step size rand) st) := by
  intro n
  induction n with
  | zero => intro s st h; simpa using h
  | succ n ih =>
    intro s st h
    rw [List.range'_succ, List.foldl_cons]
    have := ih (s + 1) _ (reservoirInv_step size rand s st h)
    rwa [show s + 1 + n = s + (n + 1) by omega] at this

theorem reservoirInv_run (size max_size : Nat) (rand : Nat → Nat) :
    ReservoirInv size (size + 1 + (max_size - size)) (reservoir_run size max_size rand) :=
  reservoirInv_foldl size rand _ _ _ (reservoirInv_init size)

/-! ## The sampler: size, distinctness, range, stores -/

/-- C1: for `size ≤ population_size` and every stream of draws, the vector returned by
`reservoir_sample(size, population_size)` has exactly `size` elements and they are
pairwise distinct. -/
theorem reservoir_sample_size_distinct (size population_size : Nat) (rand : Nat → Nat)
    (_h : size ≤ population_size) :
    (reservoir_sample size population_size rand).length = size ∧
      (reservoir_sample size population_size rand).Pairwise (fun a b => a ≠ b) := by
  have inv := reservoirInv_run size population_size rand
  exact ⟨inv.length_eq, inv.nodup⟩

theorem reservoir_sample_size_distinct_witness :
    2 ≤ 4 ∧ (reservoir_sample 2 4 (fun k => k)).length = 2 ∧
      (reservoir_sample 2 4 (fun k => k)).Pairwise (fun a b => a ≠ b) :=
  ⟨by decide, reservoir_sample_size_distinct 2 4 (fun k => k) (by decide)⟩

/-- The elements of the returned vector lie in `[1, max_size]`. -/
theorem reservoir_sample_range (size max_size : Nat) (rand : Nat → Nat) (h : size ≤ max_size) :
    ∀ x ∈ reservoir_sample size max_size rand, (1 : Int) ≤ x ∧ x ≤ (max_size : Int) := by
  intro x hx
  have inv := reservoirInv_run size max_size rand
  have := inv.range x hx
  refine ⟨this.1, ?_⟩
  have h2 := this.2
  push_cast at h2
  omega

/-- C2 (evaluation of the code): with `size = 2`, `population_size = 4` and the
draws `2, 0` the sampler returns `[1, 4]`; the element `4` is not in `[0, 4)`, and
`generate_pheno` on a roster of four individuals reads outside the roster. -/
theorem reservoir_sample_index_out_of_roster :
    reservoir_sample 2 4 (fun k => if k = 0 then 2 else 0) = [1, 4] ∧
      ¬ ((4 : Int) < ((4 : Nat) : Int)) ∧
      ∀ (p_ne : ℚ) (rand : Nat → Nat),
        generate_pheno [⟨"A", 0⟩, ⟨"B", 1⟩, ⟨"C", 0⟩, ⟨"D", 1⟩]
          (reservoir_sample 2 4 (fun k => if k = 0 then 2 else 0)) p_ne rand = none := by
  have h : reservoir_sample 2 4 (fun k => if k = 0 then 2 else 0) = [1, 4] := by decide
  refine ⟨h, by decide, ?_⟩
  intro p_ne rand
  rw [h]
  simp [generate_pheno, pheno_loop, vec_at]

/-- C9 (evaluation of the code): with `size = 1`, `max_size = 2` and a first
draw of `0`, the loop executes `sample_indices[1] = 2` on a vector that has the
single slot 0. -/
theorem reservoir_store_past_end :
    (reservoir_run 1 2 (fun _ => 0)).stores = [1] ∧
      (reservoir_run 1 2 (fun _ => 0)).sample_indices.length = 1 ∧
      ¬ (∀ j ∈ (reservoir_run 1 2 (fun _ => 0)).stores, j < 1) := by
  decide

/-- C10: for `1 ≤ size ≤ max_size` and every stream of draws, the first element of the
vector returned by `reservoir_sample(size, max_size)` is the initial value `1`, and
no store of the replacement loop addresses slot 0. -/
theorem reservoir_sample_first_fixed (size max_size : Nat) (rand : Nat → Nat)
    (h1 : 1 ≤ size) (_h2 : size ≤ max_size) :
    (reservoir_sample size max_size rand).head? = some 1 ∧
      0 ∉ (reservoir_run size max_size rand).stores := by
  have inv := reservoirInv_run size max_size rand
  refine ⟨inv.head h1, ?_⟩
  intro h0
  have := inv.stores_range 0 h0
  omega

theorem reservoir_sample_first_fixed_witness :
    (reservoir_sample 3 10 (fun k => 7 * k + 2)).head? = some 1 ∧
      0 ∉ (reservoir_run 3 10 (fun k => 7 * k + 2)).stores :=
  reservoir_sample_first_fixed 3 10 (fun k => 7 * k + 2) (by decide) (by decide)

/-! ## The phenotype model -/

theorem p_case_ne_base_pos {OR MAF Sr : ℚ} (hOR : 0 < OR) (hM0 : 0 < MAF) (hM1 : MAF < 1)
    (hSr : 0 < Sr) : 0 < p_case_ne_base OR MAF Sr := by
  unfold p_case_ne_base
  have h1 : 0 < 1 + Sr⁻¹ := by positivity
  have h2 : 0 < MAF * (OR - 1) + 1 := by nlinarith
  exact mul_pos h1 h2

/-- C4 (counterexample): at `OR = 1/2`, `MAF = 1/2`, `Sr = 4`, inside the stated domain,
`p_case_ne` is `16/15 > 1` and `p_case_e` is `-1/15 < 0`. -/
theorem p_case_outside_unit_interval :
    (0 : ℚ) < 1 / 2 ∧ (1 / 2 : ℚ) < 1 ∧ (0 : ℚ) < 4 ∧
      p_case_ne (1 / 2) (1 / 2) 4 = 16 / 15 ∧ ¬ (p_case_ne (1 / 2) (1 / 2) 4 ≤ 1) ∧
      p_case_e (1 / 2) (1 / 2) 4 = -1 / 15 ∧ ¬ (0 ≤ p_case_e (1 / 2) (1 / 2) 4) := by
  norm_num [p_case_ne, p_case_e, p_case_ne_base]

/-- C4 (amended): for `OR > 0`, `0 < MAF < 1`, `Sr > 0` no division by zero occurs (`Sr`
and the base of the outer power are non-zero), and `p_case_ne`, `p_case_e` both lie
in `[0, 1]` exactly when the base `(1 + 1/Sr) * (MAF * (OR - 1) + 1)` is at least 1;
this is the case whenever `OR ≥ 1`. -/
theorem p_case_unit_interval_iff (OR MAF Sr : ℚ) (hOR : 0 < OR) (hM0 : 0 < MAF)
    (hM1 : MAF < 1) (hSr : 0 < Sr) :
    (Sr ≠ 0 ∧ p_case_ne_base OR MAF Sr ≠ 0) ∧
      ((0 ≤ p_case_ne OR MAF Sr ∧ p_case_ne OR MAF Sr ≤ 1 ∧
          0 ≤ p_case_e OR MAF Sr ∧ p_case_e OR MAF Sr ≤ 1) ↔ 1 ≤ p_case_ne_base OR MAF Sr) ∧
      (1 ≤ OR → 1 ≤ p_case_ne_base OR MAF Sr) := by
  have hb := p_case_ne_base_pos hOR hM0 hM1 hSr
  have hp : 0 < p_case_ne OR MAF Sr := by
    unfold p_case_ne
    exact inv_pos.2 hb
  refine ⟨⟨hSr.ne', hb.ne'⟩, ⟨?_, ?_⟩, ?_⟩
  · rintro ⟨_, hle, _, _⟩
    unfold p_case_ne at hle
    exact (inv_le_one₀ hb).1 hle
  · intro h1
    have hle : p_case_ne OR MAF Sr ≤ 1 := by
      unfold p_case_ne
      exact (inv_le_one₀ hb).2 h1
    refine ⟨hp.le, hle, ?_, ?_⟩
    · unfold p_case_e
      linarith
    · unfold p_case_e
      linarith
  · intro h1
    unfold p_case_ne_base
    have h2 : (1 : ℚ) ≤ 1 + Sr⁻¹ := by
      have : (0 : ℚ) ≤ Sr⁻¹ := by positivity
      linarith
    have h3 : (1 : ℚ) ≤ MAF * (OR - 1) + 1 := by nlinarith
    calc (1 : ℚ) = 1 * 1 := by norm_num
      _ ≤ (1 + Sr⁻¹) * (MAF * (OR - 1) + 1) := by
        apply mul_le_mul h2 h3 (by norm_num) (by linarith)

theorem p_case_unit_interval_iff_witness :
    ((1 : ℚ) ≠ 0 ∧ p_case_ne_base 2 (1 / 4) 1 ≠ 0) ∧
      ((0 ≤ p_case_ne 2 (1 / 4) 1 ∧ p_case_ne 2 (1 / 4) 1 ≤ 1 ∧
          0 ≤ p_case_e 2 (1 / 4) 1 ∧ p_case_e 2 (1 / 4) 1 ≤ 1) ↔ 1 ≤ p_case_ne_base 2 (1 / 4) 1) ∧
      ((1 : ℚ) ≤ 2 → 1 ≤ p_case_ne_base 2 (1 / 4) 1) :=
  p_case_unit_interval_iff 2 (1 / 4) 1 (by norm_num) (by norm_num) (by norm_num) (by norm_num)

/-- C5: for every `MAF` and every `Sr > 0`, `p_case_ne(1, MAF, Sr) = 1 / (1 + 1/Sr)`, whatever
`MAF` is; in particular `p_case_ne(1, 1/4, 1) = 1/2`. -/
theorem p_case_ne_null_effect (MAF Sr : ℚ) (_hSr : 0 < Sr) :
    p_case_ne 1 MAF Sr = 1 / (1 + 1 / Sr) ∧ p_case_ne 1 (1 / 4) 1 = 1 / 2 := by
  constructor
  · simp [p_case_ne, p_case_ne_base]
  · norm_num [p_case_ne, p_case_ne_base]

theorem p_case_ne_null_effect_witness :
    (0 : ℚ) < 3 ∧ p_case_ne 1 (2 / 5) 3 = 1 / (1 + 1 / 3) ∧ p_case_ne 1 (1 / 4) 1 = 1 / 2 :=
  ⟨by norm_num, p_case_ne_null_effect (2 / 5) 3 (by norm_num)⟩

/-! ## The phenotype generator -/

theorem string_join_cons (a : String) (l : List String) :
    String.join (a :: l) = a ++ String.join l := by
  apply String.ext
  simp [String.join_eq]

theorem vec_at_some {α : Type} (v : List α) (i : Int) (h0 : 0 ≤ i) (h1 : i < (v.length : Int)) :
    ∃ s, vec_at v i = some s := by
  have hlt : i.toNat < v.length := by omega
  exact ⟨v[i.toNat], by simp [vec_at, h0, hlt]⟩

theorem pheno_label_le_one (element_present : Int) (rand_nr : Nat) (p_ne p_e : ℚ) :
    pheno_label element_present rand_nr p_ne p_e = 0 ∨
      pheno_label element_present rand_nr p_ne p_e = 1 := by
  unfold pheno_label
  split
  · exact Or.inr rfl
  · exact Or.inl rfl

theorem pheno_loop_lines (sample_names : List Sample) (p_ne p_e : ℚ) (rand : Nat → Nat) :
    ∀ (kept : List Int) (k : Nat) (out : String),
      (∀ i ∈ kept, 0 ≤ i ∧ i < (sample_names.length : Int)) →
      ∃ lines : List String,
        pheno_loop sample_names p_ne p_e rand kept k out = some (out ++ String.join lines) ∧
        lines.length = kept.length ∧
        ∀ n (hn : n < kept.length), ∃ s,
          vec_at sample_names (kept[n]) = some s ∧
          lines[n]? =
            some (pheno_line s (pheno_label s.element_present (rand (k + n)) p_ne p_e)) := by
  intro kept
  induction kept with
  | nil =>
    intro k out _
    exact ⟨[], by simp [pheno_loop, String.join], rfl, by simp⟩
  | cons i rest ih =>
    intro k out hvalid
    obtain ⟨s, hs⟩ := vec_at_some sample_names i (hvalid i (by simp)).1 (hvalid i (by simp)).2
    obtain ⟨lines, hrun, hlen, hline⟩ :=
      ih (k + 1) (out ++ pheno_line s (pheno_label s.element_present (rand k) p_ne p_e))
        (fun j hj => hvalid j (by simp [hj]))
    refine ⟨pheno_line s (pheno_label s.element_present (rand k) p_ne p_e) :: lines, ?_, ?_, ?_⟩
    · simp only [pheno_loop, hs, hrun, string_join_cons, String.append_assoc]
    · simp [hlen]
    · intro n hn
      cases n with
      | zero => exact ⟨s, by simpa using hs, by simp⟩
      | succ n =>
        obtain ⟨t, ht, hl⟩ := hline n (by simpa using hn)
        refine ⟨t, by simpa using ht, ?_⟩
        simp only [List.getElem?_cons_succ, hl]
        rw [show k + 1 + n = k + (n + 1) by omega]

/-- C6: for a roster, kept indices that are all valid roster positions, any `p_ne` and any
stream of draws, `generate_pheno` writes a content that is the concatenation of
exactly `len(kept_indices)` lines, the `k`-th of which is the name of
`roster[kept_indices[k]]`, a tab, the label `0` or `1`, and a newline. -/
theorem generate_pheno_rows (sample_names : List Sample) (kept_indices : List Int) (p_ne : ℚ)
    (rand : Nat → Nat)
    (hvalid : ∀ i ∈ kept_indices, 0 ≤ i ∧ i < (sample_names.length : Int)) :
    ∃ lines : List String,
      generate_pheno sample_names kept_indices p_ne rand = some (String.join lines) ∧
      lines.length = kept_indices.length ∧
      ∀ k (hk : k < kept_indices.length), ∃ s,
        vec_at sample_names (kept_indices[k]) = some s ∧
        (lines[k]? = some (s.sample_name ++ "\t" ++ "0" ++ "\n") ∨
          lines[k]? = some (s.sample_name ++ "\t" ++ "1" ++ "\n")) := by
  obtain ⟨lines, hrun, hlen, hline⟩ :=
    pheno_loop_lines sample_names p_ne (1 - p_ne) rand kept_indices 0 "" hvalid
  refine ⟨lines, ?_, hlen, ?_⟩
  · rw [generate_pheno, hrun]
    congr 1
  · intro k hk
    obtain ⟨s, hs, hl⟩ := hline k hk
    refine ⟨s, hs, ?_⟩
    rcases pheno_label_le_one s.element_present (rand (0 + k)) p_ne (1 - p_ne) with h | h
    · left
      rw [hl, h]
      rfl
    · right
      rw [hl, h]
      rfl

theorem generate_pheno_rows_witness :
    ∃ lines : List String,
      generate_pheno [⟨"A", 0⟩, ⟨"B", 1⟩, ⟨"C", 0⟩, ⟨"D", 1⟩] [1, 3] (1 / 2) (fun _ => 7)
        = some (String.join lines) ∧
      lines.length = [(1 : Int), 3].length ∧
      ∀ k (hk : k < [(1 : Int), 3].length), ∃ s,
        vec_at [(⟨"A", 0⟩ : Sample), ⟨"B", 1⟩, ⟨"C", 0⟩, ⟨"D", 1⟩] ([(1 : Int), 3][k]) = some s ∧
        (lines[k]? = some (s.sample_name ++ "\t" ++ "0" ++ "\n") ∨
          lines[k]? = some (s.sample_name ++ "\t" ++ "1" ++ "\n")) :=
  generate_pheno_rows [⟨"A", 0⟩, ⟨"B", 1⟩, ⟨"C", 0⟩, ⟨"D", 1⟩] [1, 3] (1 / 2) (fun _ => 7)
    (by decide)

theorem pheno_label_draw_pos (p_ne : ℚ) (h0 : 0 ≤ p_ne) (h1 : p_ne ≤ 1)
    (element_present : Int) (draw : Nat) (hd : 1 ≤ draw) :
    pheno_label element_present draw p_ne (1 - p_ne) = 0 := by
  have hq : (1 : ℚ) ≤ (draw : ℚ) := by exact_mod_cast hd
  unfold pheno_label
  rw [if_neg]
  rintro (⟨_, h⟩ | ⟨_, h⟩) <;> linarith

/-- C8: in `generate_pheno` the draw is the raw non-negative `rand()` value, compared with
a probability.  For every `p_ne` in `[0, 1]` (with `p_e = 1 - p_ne`), every value of
`element_present` and every draw `≥ 1` the label is `0`, and a label `1` forces the
draw to be `0`; accordingly, for valid kept indices, the `k`-th line of the file
carries the label `0` whenever the `k`-th draw is `≥ 1`. -/
theorem pheno_label_zero_unless_draw_zero (sample_names : List Sample) (kept_indices : List Int)
    (p_ne : ℚ) (rand : Nat → Nat) (h0 : 0 ≤ p_ne) (h1 : p_ne ≤ 1)
    (hvalid : ∀ i ∈ kept_indices, 0 ≤ i ∧ i < (sample_names.length : Int)) :
    (∀ (element_present : Int) (draw : Nat), 1 ≤ draw →
        pheno_label element_present draw p_ne (1 - p_ne) = 0) ∧
      (∀ (element_present : Int) (draw : Nat),
        pheno_label element_present draw p_ne (1 - p_ne) = 1 → draw = 0) ∧
      ∃ lines : List String,
        generate_pheno sample_names kept_indices p_ne rand = some (String.join lines) ∧
        lines.length = kept_indices.length ∧
        ∀ k (hk : k < kept_indices.length), 1 ≤ rand k → ∃ s,
          vec_at sample_names (kept_indices[k]) = some s ∧
          lines[k]? = some (s.sample_name ++ "\t" ++ "0" ++ "\n") := by
  refine ⟨fun ep draw hd => pheno_label_draw_pos p_ne h0 h1 ep draw hd, ?_, ?_⟩
  · intro ep draw hlab
    by_contra hne
    have := pheno_label_draw_pos p_ne h0 h1 ep draw (by omega)
    omega
  · obtain ⟨lines, hrun, hlen, hline⟩ :=
      pheno_loop_lines sample_names p_ne (1 - p_ne) rand kept_indices 0 "" hvalid
    refine ⟨lines, ?_, hlen, ?_⟩
    · rw [generate_pheno, hrun]
      congr 1
    · intro k hk hdraw
      obtain ⟨s, hs, hl⟩ := hline k hk
      refine ⟨s, hs, ?_⟩
      rw [Nat.zero_add] at hl
      rw [hl, pheno_label_draw_pos p_ne h0 h1 _ _ hdraw]
      rfl

theorem pheno_label_zero_unless_draw_zero_witness :
    pheno_label 1 5 (1 / 3) (1 - 1 / 3) = 0 ∧ pheno_label 0 5 (1 / 3) (1 - 1 / 3) = 0 :=
  ⟨(pheno_label_zero_unless_draw_zero [⟨"A", 0⟩, ⟨"B", 1⟩] [1, 0] (1 / 3) (fun _ => 5)
      (by norm_num) (by norm_num) (by decide)).1 1 5 (by decide),
   (pheno_label_zero_unless_draw_zero [⟨"A", 0⟩, ⟨"B", 1⟩] [1, 0] (1 / 3) (fun _ => 5)
      (by norm_num) (by norm_num) (by decide)).1 0 5 (by decide)⟩

/-! ## The sweep driver -/

theorem double_to_int_half : double_to_int (1 / 2) = 0 := by
  have h : ((1 : ℚ) / 2).num = 1 ∧ ((1 : ℚ) / 2).den = 2 := by
    constructor <;> norm_num
  simp only [double_to_int, h.1, h.2]
  decide

theorem double_to_int_intCast (n : Int) : double_to_int (n : ℚ) = n := by
  simp [double_to_int]

theorem double_to_int_add_one (n : Int) : double_to_int ((n : ℚ) + 1) = n + 1 := by
  have h : ((n : ℚ) + 1) = ((n + 1 : Int) : ℚ) := by push_cast; ring
  rw [h, double_to_int_intCast]

/-- C7 (evaluation of the code): with the constants of the scenario the sweep of
`main` prints eight rows, whatever the trials return, and their `OR` fields are `0`
and `1` (the counter is an `int`), not `0.5` and `1.5`. -/
theorem scenario_sweep_rows {ρ σ : Type} (run : σ → Nat → ℚ → ρ × σ) (s : σ) :
    (main_sweep scenario_config run 3 s).map
        (List.map (fun r => (r.OR, r.num_samples, r.rep))) =
      some [(0, 50, 1), (0, 50, 2), (0, 100, 1), (0, 100, 2),
            (1, 50, 1), (1, 50, 2), (1, 100, 1), (1, 100, 2)] := by
  have e1 : double_to_int 1 = 1 := by
    have := double_to_int_intCast 1
    rwa [Int.cast_one] at this
  have e2 : double_to_int 2 = 2 := by
    have := double_to_int_intCast 2
    rwa [Int.cast_ofNat] at this
  simp only [main_sweep, scenario_config, double_to_int_half, OR_loop, samples_loop,
    repeat_loop]
  norm_num [e1, e2, double_to_int_half]

/-! ### Termination and first row of the three loops -/

section loops
variable {ρ σ : Type}

theorem repeat_loop_first (cfg : SweepConfig) (run : σ → Nat → ℚ → ρ × σ) (OR num_samples : Int) :
    ∀ (fuel : Nat) (rep : Int) (s : σ), 1 ≤ fuel → cfg.repeats < (rep : ℚ) + fuel - 1 →
      ∃ rows s', repeat_loop cfg run OR num_samples fuel rep s = some (rows, s') ∧
        ((rep : ℚ) ≤ cfg.repeats →
          rows.head? = some { OR := OR, num_samples := num_samples, rep := rep,
                              result := (run s (int_to_size_t OR) (num_samples : ℚ)).1 }) := by
  intro fuel
  induction fuel with
  | zero => intro rep s h; omega
  | succ n ih =>
    intro rep s _ hlt
    by_cases hc : (rep : ℚ) ≤ cfg.repeats
    · have hn : 1 ≤ n := by
        rcases Nat.eq_zero_or_pos n with h0 | h0
        · subst h0
          push_cast at hlt
          linarith
        · exact h0
      obtain ⟨rows, s', hrun, -⟩ :=
        ih (rep + 1) (run s (int_to_size_t OR) (num_samples : ℚ)).2 hn (by
          push_cast at hlt ⊢
          linarith)
      exact ⟨{ OR := OR, num_samples := num_samples, rep := rep,
                result := (run s (int_to_size_t OR) (num_samples : ℚ)).1 } :: rows, s',
        by simp [repeat_loop, hc, hrun], fun _ => by simp⟩
    · exact ⟨[], s, by simp [repeat_loop, hc], fun h => absurd h hc⟩

theorem samples_loop_first (cfg : SweepConfig) (run : σ → Nat → ℚ → ρ × σ) (OR : Int)
    (fuel : Nat) (hfuel : 1 ≤ fuel) (hrep : cfg.repeats < (fuel : ℚ)) (hone : 1 ≤ cfg.repeats) :
    ∀ (n : Nat) (num_samples : Int) (s : σ), 1 ≤ n →
      cfg.end_samples < num_samples + ((n : Int) - 1) * cfg.samples_step →
      ∃ rows s', samples_loop cfg run OR fuel n num_samples s = some (rows, s') ∧
        (num_samples ≤ cfg.end_samples →
          rows.head? = some { OR := OR, num_samples := num_samples, rep := 1,
                              result := (run s (int_to_size_t OR) (num_samples : ℚ)).1 }) := by
  intro n
  induction n with
  | zero => intro num_samples s h; omega
  | succ n ih =>
    intro num_samples s _ hlt
    by_cases hc : num_samples ≤ cfg.end_samples
    · have hn : 1 ≤ n := by
        rcases Nat.eq_zero_or_pos n with h0 | h0
        · subst h0
          simp at hlt
          omega
        · exact h0
      obtain ⟨rows, s', hrun, hhead⟩ :=
        repeat_loop_first cfg run OR num_samples fuel 1 s hfuel (by
          push_cast
          linarith)
      obtain ⟨rows', s'', hrun', -⟩ :=
        ih (num_samples + cfg.samples_step) s' hn (by
          push_cast at hlt
          linarith)
      refine ⟨rows ++ rows', s'', by simp [samples_loop, hc, hrun, hrun'], fun _ => ?_⟩
      have h1 := hhead (by simpa using hone)
      cases rows with
      | nil => simp at h1
      | cons r rs => simpa using h1
    · exact ⟨[], s, by simp [samples_loop, hc], fun h => absurd h hc⟩

theorem OR_loop_first (cfg : SweepConfig) (run : σ → Nat → ℚ → ρ × σ)
    (fuel : Nat) (hfuel : 1 ≤ fuel) (hrep : cfg.repeats < (fuel : ℚ)) (hone : 1 ≤ cfg.repeats)
    (hsamples : cfg.end_samples < cfg.start_samples + ((fuel : Int) - 1) * cfg.samples_step)
    (hstart : cfg.start_samples ≤ cfg.end_samples) (hOR : cfg.OR_step = 1) :
    ∀ (n : Nat) (OR : Int) (s : σ), 1 ≤ n → cfg.end_OR < (OR : ℚ) + n - 1 →
      ∃ rows s', OR_loop cfg run fuel n OR s = some (rows, s') ∧
        ((OR : ℚ) ≤ cfg.end_OR →
          rows.head? = some { OR := OR, num_samples := cfg.start_samples, rep := 1,
                              result := (run s (int_to_size_t OR) (cfg.start_samples : ℚ)).1 }) := by
  intro n
  induction n with
  | zero => intro OR s h; omega
  | succ n ih =>
    intro OR s _ hlt
    by_cases hc : (OR : ℚ) ≤ cfg.end_OR
    · have hn : 1 ≤ n := by
        rcases Nat.eq_zero_or_pos n with h0 | h0
        · subst h0
          push_cast at hlt
          linarith
        · exact h0
      obtain ⟨rows, s', hrun, hhead⟩ :=
        samples_loop_first cfg run OR fuel hfuel hrep hone fuel cfg.start_samples s hfuel
          hsamples
      obtain ⟨rows', s'', hrun', -⟩ :=
        ih (OR + 1) s' hn (by
          push_cast at hlt ⊢
          linarith)
      refine ⟨rows ++ rows', s'', ?_, fun _ => ?_⟩
      · simp [OR_loop, hc, hrun, hOR, double_to_int_add_one, hrun']
      · have h1 := hhead hstart
        cases rows with
        | nil => simp at h1
        | cons r rs => simpa using h1
    · exact ⟨[], s, by simp [OR_loop, hc], fun h => absurd h hc⟩

end loops

theorem reservoir_sample_zero (max_size : Nat) (rand : Nat → Nat) :
    reservoir_sample 0 max_size rand = [] :=
  List.length_eq_zero.1 (reservoirInv_run 0 max_size rand).length_eq

/-- C3 (evaluation of the code): with the source's constants the sweep of `main`
terminates and its first row is the cell `OR = 0`, `num_samples = 50`, `repeat = 1`;
the trial of that cell asks the sampler for `0` indices (the cell's `OR`), not `50`,
and stages `p_case_ne(50, MAF, Sr) = 2/53` (the cell's sample size as odds ratio),
not `p_case_ne(0, MAF, Sr) = 2/3`. -/
theorem first_cell_arguments_swapped (sample_names : List Sample) (rand : Nat → Nat)
    (seer : Staging → Int) :
    ∃ (t : Trial) (rows : List (Row Trial)),
      main_rows source_config sample_names rand seer 101
        = some ({ OR := 0, num_samples := 50, rep := 1, result := t } :: rows) ∧
      t.staging.samples_kept = reservoir_sample 0 sample_names.length rand ∧
      t.staging.samples_kept.length = 0 ∧
      t.staging.p_ne = p_case_ne 50 source_config.element_MAF source_config.target_Sr ∧
      t.staging.p_ne = 2 / 53 ∧
      p_case_ne 0 source_config.element_MAF source_config.target_Sr = 2 / 3 := by
  obtain ⟨rows, s', hrun, hhead⟩ :=
    OR_loop_first source_config
      (seer_hits_call sample_names source_config.element_MAF source_config.target_Sr rand seer)
      101 (by norm_num) (by norm_num [source_config]) (by norm_num [source_config])
      (by norm_num [source_config]) (by norm_num [source_config])
      rfl 101 0 0 (by norm_num) (by norm_num [source_config])
  have h1 := hhead (by norm_num [source_config])
  cases rows with
  | nil => simp at h1
  | cons r rs =>
    simp only [List.head?_cons, Option.some.injEq] at h1
    refine ⟨r.result, rs, ?_, ?_, ?_, ?_, ?_, ?_⟩
    · simp only [main_rows, main_sweep, source_config, double_to_int_half] at hrun ⊢
      rw [hrun, h1]
      rfl
    · rw [h1]
      simp [seer_hits_call, seer_hits_stage, int_to_size_t]
    · rw [h1]
      simp [seer_hits_call, seer_hits_stage, int_to_size_t, reservoir_sample_zero]
    · rw [h1]
      simp [seer_hits_call, seer_hits_stage, source_config]
    · rw [h1]
      norm_num [seer_hits_call, seer_hits_stage, source_config, p_case_ne, p_case_ne_base]
    · norm_num [source_config, p_case_ne, p_case_ne_base]

end Seer

